import Mathlib

/-! Redshift Serverless namespace data source and Neptune subnet group checks

A shallow embedding of

* `internal/service/redshiftserverless/namespace_data_source.go`
  (`DataSourceNamespace`, `dataSourceNamespaceRead`), and
* `internal/service/neptune/subnet_group_test.go`
  (`testAccCheckSubnetGroupDestroy`, `testAccCheckSubnetGroupExists`).

Go values that are mutated through a pointer (`d *schema.ResourceData`,
`v *neptune.DBSubnetGroup`) are passed in and returned explicitly.  The Finder
functions, which call the vendor API, are parameters of the embedded functions.
-/

namespace Provider

/-! ## Errors and formatting -/

/-- A Go `error` value: the text of its `Error()` method and whether
`tfresource.NotFound` holds of it. -/
structure Err where
  Error : String
  NotFound : Bool
  deriving DecidableEq, Repr

/-- An operand of a formatting call. The source only formats strings and errors. -/
inductive Arg where
  | str (s : String)
  | err (e : Err)
  deriving DecidableEq, Repr

/-- The text the verb `%s` prints for an operand: a string as it is, an error
through its `Error()` method. -/
def Arg.text : Arg → String
  | .str s => s
  | .err e => e.Error

/-- The fragment of `fmt.Sprintf` the source uses, on characters: `%s` consumes
the next operand, `%%` prints a percent sign, any other character is copied.
A `%s` without an operand prints `%!s(MISSING)`. -/
def sprintfChars : List Char → List Arg → List Char
  | [], _ => []
  | [c], _ => [c]
  | c :: c' :: rest, args =>
    if c = '%' then
      if c' = 's' then
        match args with
        | a :: args' => a.text.data ++ sprintfChars rest args'
        | [] => "%!s(MISSING)".data ++ sprintfChars rest []
      else if c' = '%' then '%' :: sprintfChars rest args
      else c :: sprintfChars (c' :: rest) args
    else c :: sprintfChars (c' :: rest) args

/-- The function `fmt.Sprintf`, restricted to the verbs `%s` and `%%`. -/
def Sprintf (format : String) (args : List Arg) : String :=
  ⟨sprintfChars format.data args⟩

/-- The function `fmt.Errorf` for formats without `%w`: a fresh error carrying
the formatted text. It wraps nothing, so `tfresource.NotFound` is false of it. -/
def Errorf (format : String) (args : List Arg) : Err :=
  { Error := Sprintf format args, NotFound := false }

/-! ## Diagnostics -/

/-- Severity of a diagnostic (`diag.Error`, `diag.Warning`). -/
inductive Severity where
  | Error
  | Warning
  deriving DecidableEq, Repr

/-- One entry of `diag.Diagnostics`. -/
structure Diagnostic where
  Severity : Severity
  Summary : String
  deriving DecidableEq, Repr

/-- The type `diag.Diagnostics`. -/
abbrev Diagnostics := List Diagnostic

/-- Modelled from the spec: `sdkdiag.AppendErrorf` (package `internal/errs/sdkdiag`)
is not among the source files. Following "surfaces a formatted error", it
appends to `diags` one diagnostic of error severity whose summary is the
formatted text. -/
def AppendErrorf (diags : Diagnostics) (format : String) (args : List Arg) : Diagnostics :=
  diags ++ [{ Severity := Severity.Error, Summary := Sprintf format args }]

/-! ## Schema and resource data -/

/-- The schema value types the data source uses. -/
inductive ValueType where
  | TypeString
  | TypeSet
  deriving DecidableEq, Repr

/-- The fields of `schema.Schema` that the data source sets; an omitted Go field
has its zero value. `Elem` holds the `Type` of the element schema. -/
structure Schema where
  Type_ : ValueType
  Required : Bool := false
  Optional : Bool := false
  Computed : Bool := false
  Elem : Option ValueType := none
  deriving DecidableEq, Repr

/-- A Go value handed to `d.Set`: a `*string` or a `[]*string`; a nil pointer
is `none`. -/
inductive GoValue where
  | stringPtr (p : Option String)
  | stringPtrs (l : List (Option String))
  deriving DecidableEq, Repr

/-- A value held by an attribute: a string for `TypeString`, a set of strings
for `TypeSet`. -/
inductive Value where
  | str (s : String)
  | set (s : Finset String)
  deriving DecidableEq

/-- The part of `schema.ResourceData` the read callback touches: the identifier
and the attribute map. `setCalls` is no Go field: it records the keys of the
`d.Set` calls made so far, oldest first. -/
structure ResourceData where
  Id : String
  attrs : List (String × Value)
  setCalls : List String
  deriving DecidableEq

/-- The method `d.SetId`. -/
def ResourceData.SetId (d : ResourceData) (v : String) : ResourceData :=
  { d with Id := v }

/-- The method `d.Get`, as a lookup in the attribute map. -/
def ResourceData.Get (d : ResourceData) (key : String) : Option Value :=
  d.attrs.lookup key

/-- The expression `d.Get(key).(string)` for an attribute of `TypeString`: the
string held, and the zero value `""` when the attribute holds none. -/
def ResourceData.GetString (d : ResourceData) (key : String) : String :=
  match d.Get key with
  | some (Value.str s) => s
  | _ => ""

/-- What `d.Set` stores for a Go value under a schema type: for `TypeString`
the string pointed to, and `""` for a nil pointer; for `TypeSet` the set of the
strings pointed to, with `""` for a nil element, so that duplicates collapse and
the order is lost. A Go value that does not fit the schema type is refused. -/
def normalize : ValueType → GoValue → Option Value
  | ValueType.TypeString, GoValue.stringPtr p => some (Value.str (p.getD ""))
  | ValueType.TypeSet, GoValue.stringPtrs l =>
    some (Value.set (l.map (fun p => p.getD "")).toFinset)
  | _, _ => none

/-! ## The namespace data source -/

/-- The remote object `redshiftserverless.Namespace` of the vendor SDK. Its
declaration is not part of the repository: the eight fields below are the ones
`dataSourceNamespaceRead` reads, and `Rest` (of the parameter type `Other`) stands for
whatever else the SDK type declares. -/
structure Namespace (Other : Type) where
  AdminUsername : Option String
  NamespaceArn : Option String
  DbName : Option String
  DefaultIamRoleArn : Option String
  IamRoles : List (Option String)
  KmsKeyId : Option String
  LogExports : List (Option String)
  NamespaceId : Option String
  Rest : Other

/-- The `Schema` map of `DataSourceNamespace`, one pair per entry. -/
def DataSourceNamespace : List (String × Schema) :=
  [ ("admin_username", { Type_ := ValueType.TypeString, Computed := true }),
    ("arn", { Type_ := ValueType.TypeString, Computed := true }),
    ("db_name", { Type_ := ValueType.TypeString, Computed := true }),
    ("default_iam_role_arn", { Type_ := ValueType.TypeString, Computed := true }),
    ("iam_roles", { Type_ := ValueType.TypeSet, Computed := true,
                    Elem := some ValueType.TypeString }),
    ("kms_key_id", { Type_ := ValueType.TypeString, Computed := true }),
    ("log_exports", { Type_ := ValueType.TypeSet, Computed := true,
                      Elem := some ValueType.TypeString }),
    ("namespace_id", { Type_ := ValueType.TypeString, Computed := true }),
    ("namespace_name", { Type_ := ValueType.TypeString, Required := true }) ]

/-- The method `d.Set` on the resource data of this data source, whose schema is
that of `DataSourceNamespace`. The value is stored as the schema type of `key`
prescribes and every other attribute is kept. For a key the schema does not
declare, or a value that does not fit its type, `d.Set` returns an error and
stores nothing; the callback drops that error. -/
def ResourceData.Set (d : ResourceData) (key : String) (value : GoValue) : ResourceData :=
  let d := { d with setCalls := d.setCalls ++ [key] }
  match (DataSourceNamespace.lookup key).bind (fun sch => normalize sch.Type_ value) with
  | some v => { d with attrs := (key, v) :: d.attrs.filter (fun p => p.1 ≠ key) }
  | none => d

/-- The read callback `dataSourceNamespaceRead`. It returns the resource data
as the callback leaves it, together with the returned diagnostics. -/
def dataSourceNamespaceRead {Other : Type}
    (FindNamespaceByName : String → Except Err (Namespace Other))
    (d : ResourceData) : ResourceData × Diagnostics :=
  let diags : Diagnostics := []
  let namespaceName := d.GetString "namespace_name"
  match FindNamespaceByName namespaceName with
  | .error err =>
    (d, AppendErrorf diags "reading Redshift Serverless Namespace (%s): %s"
          [Arg.str namespaceName, Arg.err err])
  | .ok resource =>
    let d := d.SetId namespaceName
    let d := d.Set "admin_username" (GoValue.stringPtr resource.AdminUsername)
    let d := d.Set "arn" (GoValue.stringPtr resource.NamespaceArn)
    let d := d.Set "db_name" (GoValue.stringPtr resource.DbName)
    let d := d.Set "default_iam_role_arn" (GoValue.stringPtr resource.DefaultIamRoleArn)
    let d := d.Set "iam_roles" (GoValue.stringPtrs resource.IamRoles)
    let d := d.Set "kms_key_id" (GoValue.stringPtr resource.KmsKeyId)
    let d := d.Set "log_exports" (GoValue.stringPtrs resource.LogExports)
    let d := d.Set "namespace_id" (GoValue.stringPtr resource.NamespaceId)
    (d, diags)

/-! ## The Neptune subnet group checks -/

/-- The type `terraform.InstanceState`, reduced to the identifier. -/
structure InstanceState where
  ID : String
  deriving DecidableEq, Repr

/-- The type `terraform.ResourceState`: the resource type and the primary
instance, which the checks dereference unconditionally. -/
structure ResourceState where
  Type_ : String
  Primary : InstanceState
  deriving DecidableEq, Repr

/-- The type `terraform.ModuleState`: the `Resources` map from resource address
to resource state, as the list of its entries in iteration order. -/
structure ModuleState where
  Resources : List (String × ResourceState)
  deriving DecidableEq, Repr

/-- The type `terraform.State`, reduced to its root module. -/
structure State where
  RootModule : ModuleState
  deriving DecidableEq, Repr

/-- The error component of a Finder result `(output, err)`; `none` is `nil`. -/
def errOf {G : Type} : Except Err G → Option Err
  | .error err => some err
  | .ok _ => none

/-- Modelled from the spec: `tfresource.NotFound` (package `internal/tfresource`)
is not among the source files. It recognises the typed "not found" condition
of an error, and is false of `nil`. -/
def NotFound : Option Err → Bool
  | some err => err.NotFound
  | none => false

/-- The loop of `testAccCheckSubnetGroupDestroy` over the entries of
`s.RootModule().Resources`. -/
def destroyLoop {G : Type} (FindSubnetGroupByName : String → Except Err G) :
    List (String × ResourceState) → Option Err
  | [] => none
  | (_, rs) :: rest =>
    if rs.Type_ ≠ "aws_neptune_subnet_group" then
      destroyLoop FindSubnetGroupByName rest
    else
      let err := errOf (FindSubnetGroupByName rs.Primary.ID)
      if NotFound err then
        destroyLoop FindSubnetGroupByName rest
      else if err ≠ none then
        err
      else
        some (Errorf "Neptune Subnet Group %s still exists" [Arg.str rs.Primary.ID])

/-- The check returned by `testAccCheckSubnetGroupDestroy`: `none` is `nil`. -/
def testAccCheckSubnetGroupDestroy {G : Type}
    (FindSubnetGroupByName : String → Except Err G) (s : State) : Option Err :=
  destroyLoop FindSubnetGroupByName s.RootModule.Resources

/-- What a run of the check returned by `testAccCheckSubnetGroupExists` leaves
behind: the returned error (`none` is `nil`), the contents of `*v`, and the
identifiers the Finder was called with. -/
structure ExistsResult (G : Type) where
  err : Option Err
  v : G
  calls : List String

/-- The check returned by `testAccCheckSubnetGroupExists`, for the resource
address `n` and the initial contents `v` of the destination. -/
def testAccCheckSubnetGroupExists {G : Type}
    (FindSubnetGroupByName : String → Except Err G) (n : String) (v : G)
    (s : State) : ExistsResult G :=
  match s.RootModule.Resources.lookup n with
  | none => { err := some (Errorf "Not found: %s" [Arg.str n]), v := v, calls := [] }
  | some rs =>
    if rs.Primary.ID = "" then
      { err := some (Errorf "No Neptune Subnet Group ID is set" []), v := v, calls := [] }
    else
      match FindSubnetGroupByName rs.Primary.ID with
      | .error err => { err := some err, v := v, calls := [rs.Primary.ID] }
      | .ok output => { err := none, v := output, calls := [rs.Primary.ID] }

/-! ## Sample inputs -/

/-- A namespace object used to illustrate the read callback. -/
def sampleNamespace : Namespace Unit :=
  { AdminUsername := some "admin", NamespaceArn := some "arn:aws:redshift-serverless:ns1",
    DbName := some "dev", DefaultIamRoleArn := none, IamRoles := [some "role-a"],
    KmsKeyId := some "AWS_OWNED_KMS_KEY", LogExports := [], NamespaceId := some "id-1",
    Rest := () }

/-- A namespace Finder that knows the namespace `ns1` only. -/
def sampleFinder : String → Except Err (Namespace Unit) :=
  fun name =>
    if name = "ns1" then Except.ok sampleNamespace
    else Except.error { Error := "namespace not found", NotFound := true }

/-- A namespace Finder that fails with an access-denied error for every name. -/
def deniedFinder : String → Except Err (Namespace Unit) :=
  fun _ => Except.error { Error := "AccessDenied", NotFound := false }

/-- Resource data holding only the lookup key `namespace_name = "ns1"`. -/
def sampleData : ResourceData :=
  { Id := "", attrs := [("namespace_name", Value.str "ns1")], setCalls := [] }

/-- Part of what the SDK type `redshiftserverless.Namespace` declares besides the
eight fields read by `dataSourceNamespaceRead`: the status of the namespace. -/
structure NamespaceRest where
  Status : Option String
  deriving DecidableEq, Repr

/-- A namespace whose status is `AVAILABLE`. -/
def availableNamespace : Namespace NamespaceRest :=
  { AdminUsername := some "admin", NamespaceArn := some "arn:aws:redshift-serverless:ns1",
    DbName := some "dev", DefaultIamRoleArn := none, IamRoles := [some "role-a"],
    KmsKeyId := some "AWS_OWNED_KMS_KEY", LogExports := [], NamespaceId := some "id-1",
    Rest := { Status := some "AVAILABLE" } }

/-- The same namespace with status `DELETING`. -/
def deletingNamespace : Namespace NamespaceRest :=
  { availableNamespace with Rest := { Status := some "DELETING" } }

/-- A state with one Neptune subnet group, of identifier `sg-1`. -/
def sampleState : State :=
  { RootModule := { Resources :=
      [ ("aws_vpc.test", { Type_ := "aws_vpc", Primary := { ID := "vpc-1" } }),
        ("aws_neptune_subnet_group.test",
          { Type_ := "aws_neptune_subnet_group", Primary := { ID := "sg-1" } }) ] } }

/-- A Finder that fails with a throttling error for every identifier. -/
def throttledFinder : String → Except Err Unit :=
  fun _ => Except.error { Error := "ThrottlingException: Rate exceeded", NotFound := false }

/-- A Finder that returns an object for every identifier. -/
def foundFinder : String → Except Err Nat :=
  fun _ => Except.ok 7

/-! ## Properties of the namespace data source -/

/-- Dropping the entries of another key does not change a lookup. -/
theorem lookup_filter_ne (k key : String) (h : k ≠ key) (l : List (String × Value)) :
    (l.filter (fun p => p.1 ≠ key)).lookup k = l.lookup k := by
  induction l with
  | nil => rfl
  | cons p l ih =>
    obtain ⟨a, b⟩ := p
    by_cases ha : a = key
    · subst ha
      have hk : (k == a) = false := by simpa using h
      simpa [List.filter, List.lookup, hk] using ih
    · by_cases hka : k = a
      · subst hka
        simp [List.filter, List.lookup, ha]
      · have hk : (k == a) = false := by simpa using hka
        simpa [List.filter, List.lookup, ha, hk] using ih

/-- After `d.Set key value`, the attribute `key` holds what the schema type of
`key` makes of `value`. -/
theorem get_set_eq (d : ResourceData) (key : String) (value : GoValue) (v : Value)
    (h : (DataSourceNamespace.lookup key).bind (fun sch => normalize sch.Type_ value) = some v) :
    (d.Set key value).Get key = some v := by
  unfold ResourceData.Set
  simp only [h]
  simp [ResourceData.Get, List.lookup]

/-- The call `d.Set key value` leaves every other attribute as it was. -/
theorem get_set_ne (d : ResourceData) (k key : String) (value : GoValue) (h : k ≠ key) :
    (d.Set key value).Get k = d.Get k := by
  have hk : (k == key) = false := by simpa using h
  unfold ResourceData.Set
  cases (DataSourceNamespace.lookup key).bind (fun sch => normalize sch.Type_ value) with
  | none => rfl
  | some v =>
    simpa [ResourceData.Get, List.lookup, hk] using lookup_filter_ne k key h d.attrs

/-- The call `d.Set` does not touch the identifier. -/
theorem id_set (d : ResourceData) (key : String) (value : GoValue) :
    (d.Set key value).Id = d.Id := by
  unfold ResourceData.Set
  cases (DataSourceNamespace.lookup key).bind (fun sch => normalize sch.Type_ value) <;> rfl

/-- The call `d.Set key value` is recorded after the earlier calls. -/
theorem setCalls_set (d : ResourceData) (key : String) (value : GoValue) :
    (d.Set key value).setCalls = d.setCalls ++ [key] := by
  unfold ResourceData.Set
  cases (DataSourceNamespace.lookup key).bind (fun sch => normalize sch.Type_ value) <;> rfl

/-- The call `d.SetId` does not touch the attributes. -/
theorem get_setId (d : ResourceData) (v k : String) : (d.SetId v).Get k = d.Get k := rfl

/-- The resource data a successful read leaves behind, call by call. -/
theorem read_ok_state {Other : Type}
    (find : String → Except Err (Namespace Other)) (d : ResourceData) (r : Namespace Other)
    (hr : find (d.GetString "namespace_name") = .ok r) :
    (dataSourceNamespaceRead find d).1
      = ((((((((d.SetId (d.GetString "namespace_name")).Set "admin_username"
          (GoValue.stringPtr r.AdminUsername)).Set "arn"
          (GoValue.stringPtr r.NamespaceArn)).Set "db_name"
          (GoValue.stringPtr r.DbName)).Set "default_iam_role_arn"
          (GoValue.stringPtr r.DefaultIamRoleArn)).Set "iam_roles"
          (GoValue.stringPtrs r.IamRoles)).Set "kms_key_id"
          (GoValue.stringPtr r.KmsKeyId)).Set "log_exports"
          (GoValue.stringPtrs r.LogExports)).Set "namespace_id"
          (GoValue.stringPtr r.NamespaceId) := by
  simp [dataSourceNamespaceRead, hr]

/-- What each of the eight attributes holds after a successful read. -/
theorem read_success_copies_fields_aux {Other : Type}
    (find : String → Except Err (Namespace Other)) (d : ResourceData) (r : Namespace Other)
    (hr : find (d.GetString "namespace_name") = .ok r) :
    (dataSourceNamespaceRead find d).1.Get "admin_username"
      = some (Value.str (r.AdminUsername.getD "")) ∧
    (dataSourceNamespaceRead find d).1.Get "arn" = some (Value.str (r.NamespaceArn.getD "")) ∧
    (dataSourceNamespaceRead find d).1.Get "db_name" = some (Value.str (r.DbName.getD "")) ∧
    (dataSourceNamespaceRead find d).1.Get "default_iam_role_arn"
      = some (Value.str (r.DefaultIamRoleArn.getD "")) ∧
    (dataSourceNamespaceRead find d).1.Get "iam_roles"
      = some (Value.set (r.IamRoles.map (fun p => p.getD "")).toFinset) ∧
    (dataSourceNamespaceRead find d).1.Get "kms_key_id"
      = some (Value.str (r.KmsKeyId.getD "")) ∧
    (dataSourceNamespaceRead find d).1.Get "log_exports"
      = some (Value.set (r.LogExports.map (fun p => p.getD "")).toFinset) ∧
    (dataSourceNamespaceRead find d).1.Get "namespace_id"
      = some (Value.str (r.NamespaceId.getD "")) := by
  have hs := read_ok_state find d r hr
  refine ⟨?_, ?_, ?_, ?_, ?_, ?_, ?_, ?_⟩
  all_goals
    rw [hs]
    repeat rw [get_set_ne _ _ _ _ (by decide)]
    exact get_set_eq _ _ _ _ rfl

/-- The text produced by the error format of `dataSourceNamespaceRead`. -/
theorem sprintf_reading (n : String) (e : Err) :
    Sprintf "reading Redshift Serverless Namespace (%s): %s" [Arg.str n, Arg.err e]
      = "reading Redshift Serverless Namespace (" ++ n ++ "): " ++ e.Error := by
  apply String.ext
  simp [Sprintf, sprintfChars, Arg.text]

/-- C1: when `FindNamespaceByName` returns the error `e` for the namespace name
`n`, the returned diagnostics hold exactly one entry, of error severity, whose
message is `"reading Redshift Serverless Namespace (" ++ n ++ "): " ++ e.Error()`. -/
theorem read_error_diagnostics {Other : Type}
    (find : String → Except Err (Namespace Other)) (d : ResourceData)
    (n : String) (e : Err)
    (hn : d.GetString "namespace_name" = n) (he : find n = .error e) :
    (dataSourceNamespaceRead find d).2
      = [{ Severity := Severity.Error,
           Summary := "reading Redshift Serverless Namespace (" ++ n ++ "): " ++ e.Error }] := by
  subst hn
  simp [dataSourceNamespaceRead, he, AppendErrorf, sprintf_reading]

/-- Witness: the Finder fails with `AccessDenied` for `ns1`. -/
theorem read_error_diagnostics_witness :
    sampleData.GetString "namespace_name" = "ns1" ∧
    (dataSourceNamespaceRead deniedFinder sampleData).2
      = [{ Severity := Severity.Error,
           Summary := "reading Redshift Serverless Namespace (" ++ "ns1" ++ "): "
                        ++ "AccessDenied" }] :=
  ⟨by decide,
   read_error_diagnostics deniedFinder sampleData "ns1"
     { Error := "AccessDenied", NotFound := false } (by decide) rfl⟩

/-- C2: when `FindNamespaceByName` returns an object for the namespace name `n`
(the value of `namespace_name`), the identifier is set to `n` and the returned
diagnostics are empty. -/
theorem read_success_id_and_diags {Other : Type}
    (find : String → Except Err (Namespace Other)) (d : ResourceData)
    (n : String) (r : Namespace Other)
    (hn : d.GetString "namespace_name" = n) (hr : find n = .ok r) :
    (dataSourceNamespaceRead find d).1.Id = n ∧ (dataSourceNamespaceRead find d).2 = [] := by
  subst hn
  refine ⟨?_, by simp [dataSourceNamespaceRead, hr]⟩
  rw [read_ok_state find d r hr]
  simp [id_set, ResourceData.SetId]

/-- Witness at the sample inputs. -/
theorem read_success_id_and_diags_witness :
    (dataSourceNamespaceRead (fun _ => Except.ok sampleNamespace) sampleData).1.Id = "ns1" ∧
    (dataSourceNamespaceRead (fun _ => Except.ok sampleNamespace) sampleData).2 = [] :=
  read_success_id_and_diags (fun _ => Except.ok sampleNamespace) sampleData "ns1"
    sampleNamespace (by decide) rfl

/-- C4: when `FindNamespaceByName` returns an error, the resource data after the
call is the resource data before it: neither the identifier nor any attribute
is written. -/
theorem read_error_state_unchanged {Other : Type}
    (find : String → Except Err (Namespace Other)) (d : ResourceData) (e : Err)
    (he : find (d.GetString "namespace_name") = .error e) :
    (dataSourceNamespaceRead find d).1 = d := by
  simp [dataSourceNamespaceRead, he]

/-- Witness at the sample inputs. -/
theorem read_error_state_unchanged_witness :
    (dataSourceNamespaceRead deniedFinder sampleData).1 = sampleData :=
  read_error_state_unchanged deniedFinder sampleData
    { Error := "AccessDenied", NotFound := false } rfl

/-- C5: in the schema of `DataSourceNamespace`, `namespace_name` is Required and
not Computed; it is the only attribute that is Required or Optional; each of the
other eight attributes is Computed and neither Required nor Optional; and the
schema declares these nine attributes and no other. -/
theorem schema_required_and_computed :
    (∃ s, DataSourceNamespace.lookup "namespace_name" = some s ∧
        s.Required = true ∧ s.Computed = false) ∧
    (∀ p ∈ DataSourceNamespace,
        (p.2.Required = true ∨ p.2.Optional = true) → p.1 = "namespace_name") ∧
    (∀ k ∈ ["admin_username", "arn", "db_name", "default_iam_role_arn", "iam_roles",
            "kms_key_id", "log_exports", "namespace_id"],
        ∃ s, DataSourceNamespace.lookup k = some s ∧
          s.Computed = true ∧ s.Required = false ∧ s.Optional = false) ∧
    DataSourceNamespace.map Prod.fst
      = ["admin_username", "arn", "db_name", "default_iam_role_arn", "iam_roles",
         "kms_key_id", "log_exports", "namespace_id", "namespace_name"] := by
  refine ⟨⟨_, rfl, rfl, rfl⟩, ?_, ?_, rfl⟩
  · simp [DataSourceNamespace]
  · simp [DataSourceNamespace, List.lookup]

/-- C3, as stated, fails: two remote objects that differ in a field the callback
does not read (the status) are returned, and the resource data after the read is
the same for both, so that field of the remote object has not been copied. -/
theorem read_leaves_status_out :
    availableNamespace.Rest.Status ≠ deletingNamespace.Rest.Status ∧
    (dataSourceNamespaceRead (fun _ => Except.ok availableNamespace) sampleData).1
      = (dataSourceNamespaceRead (fun _ => Except.ok deletingNamespace) sampleData).1 := by
  refine ⟨by decide, rfl⟩

/-- C3, amended: after a successful read, each of the eight attributes holds the
field of the remote object that the callback copies into it, as a value of the
attribute's schema type (a string attribute holds the string pointed to, `""`
for a nil pointer; a set attribute holds the set of the strings pointed to), and
the resource data does not depend on anything else the remote object carries. -/
theorem read_success_copies_fields {Other : Type}
    (find : String → Except Err (Namespace Other)) (d : ResourceData) (r : Namespace Other)
    (hr : find (d.GetString "namespace_name") = .ok r) :
    (dataSourceNamespaceRead find d).1.Get "admin_username"
      = some (Value.str (r.AdminUsername.getD "")) ∧
    (dataSourceNamespaceRead find d).1.Get "arn" = some (Value.str (r.NamespaceArn.getD "")) ∧
    (dataSourceNamespaceRead find d).1.Get "db_name" = some (Value.str (r.DbName.getD "")) ∧
    (dataSourceNamespaceRead find d).1.Get "default_iam_role_arn"
      = some (Value.str (r.DefaultIamRoleArn.getD "")) ∧
    (dataSourceNamespaceRead find d).1.Get "iam_roles"
      = some (Value.set (r.IamRoles.map (fun p => p.getD "")).toFinset) ∧
    (dataSourceNamespaceRead find d).1.Get "kms_key_id"
      = some (Value.str (r.KmsKeyId.getD "")) ∧
    (dataSourceNamespaceRead find d).1.Get "log_exports"
      = some (Value.set (r.LogExports.map (fun p => p.getD "")).toFinset) ∧
    (dataSourceNamespaceRead find d).1.Get "namespace_id"
      = some (Value.str (r.NamespaceId.getD "")) ∧
    (∀ rest : Other,
      (dataSourceNamespaceRead (fun _ => Except.ok { r with Rest := rest }) d).1
        = (dataSourceNamespaceRead find d).1) := by
  obtain ⟨h1, h2, h3, h4, h5, h6, h7, h8⟩ := read_success_copies_fields_aux find d r hr
  refine ⟨h1, h2, h3, h4, h5, h6, h7, h8, ?_⟩
  intro rest
  rw [read_ok_state find d r hr, read_ok_state _ d { r with Rest := rest } rfl]

/-- Witness: the namespace `ns1`, with a nil role pointer and one IAM role. -/
theorem read_success_copies_fields_witness :
    sampleFinder (sampleData.GetString "namespace_name") = Except.ok sampleNamespace ∧
    (dataSourceNamespaceRead sampleFinder sampleData).1.Get "arn"
      = some (Value.str "arn:aws:redshift-serverless:ns1") ∧
    (dataSourceNamespaceRead sampleFinder sampleData).1.Get "default_iam_role_arn"
      = some (Value.str "") ∧
    (dataSourceNamespaceRead sampleFinder sampleData).1.Get "iam_roles"
      = some (Value.set {"role-a"}) :=
  ⟨rfl,
   (read_success_copies_fields sampleFinder sampleData sampleNamespace rfl).2.1,
   (read_success_copies_fields sampleFinder sampleData sampleNamespace rfl).2.2.2.1,
   (read_success_copies_fields sampleFinder sampleData sampleNamespace rfl).2.2.2.2.1⟩

/-- C10: on success the callback makes `d.Set` calls whose keys are pairwise
distinct (each is written once) and are exactly the attributes the schema of
`DataSourceNamespace` declares Computed; every written attribute holds a value
afterwards and every other attribute is untouched; and `namespace_name`,
declared Required, is not written but read: it keeps its value `n`, `n` becomes
the identifier, and the Finder is consulted at `n` only. -/
theorem read_writes_computed_attributes {Other : Type}
    (find : String → Except Err (Namespace Other)) (d : ResourceData) (n : String)
    (r : Namespace Other)
    (hn : d.attrs.lookup "namespace_name" = some (Value.str n))
    (hr : find n = .ok r) :
    ∃ w : List String,
      (dataSourceNamespaceRead find d).1.setCalls = d.setCalls ++ w ∧
      w.Nodup ∧
      (∀ k, k ∈ w ↔ ∃ s, DataSourceNamespace.lookup k = some s ∧ s.Computed = true) ∧
      (∀ k ∈ w, ∃ v, (dataSourceNamespaceRead find d).1.attrs.lookup k = some v) ∧
      (∀ k, k ∉ w →
        (dataSourceNamespaceRead find d).1.attrs.lookup k = d.attrs.lookup k) ∧
      "namespace_name" ∉ w ∧
      (∃ s, DataSourceNamespace.lookup "namespace_name" = some s ∧
        s.Required = true ∧ s.Computed = false) ∧
      (dataSourceNamespaceRead find d).1.attrs.lookup "namespace_name"
        = some (Value.str n) ∧
      (dataSourceNamespaceRead find d).1.Id = n ∧
      (∀ find2 : String → Except Err (Namespace Other), find2 n = find n →
        dataSourceNamespaceRead find2 d = dataSourceNamespaceRead find d) := by
  have hg : d.GetString "namespace_name" = n := by
    simp [ResourceData.GetString, ResourceData.Get, hn]
  have hr0 : find (d.GetString "namespace_name") = .ok r := by rw [hg]; exact hr
  have hs := read_ok_state find d r hr0
  have hframe : ∀ k, k ∉ ["admin_username", "arn", "db_name", "default_iam_role_arn",
      "iam_roles", "kms_key_id", "log_exports", "namespace_id"] →
      (dataSourceNamespaceRead find d).1.attrs.lookup k = d.attrs.lookup k := by
    intro k hk
    simp only [List.mem_cons, List.mem_singleton, not_or, List.not_mem_nil, or_false] at hk
    obtain ⟨h1, h2, h3, h4, h5, h6, h7, h8⟩ := hk
    show (dataSourceNamespaceRead find d).1.Get k = d.Get k
    rw [hs, get_set_ne _ _ _ _ h8, get_set_ne _ _ _ _ h7, get_set_ne _ _ _ _ h6,
      get_set_ne _ _ _ _ h5, get_set_ne _ _ _ _ h4, get_set_ne _ _ _ _ h3,
      get_set_ne _ _ _ _ h2, get_set_ne _ _ _ _ h1, get_setId]
  have hname : "namespace_name" ∉ ["admin_username", "arn", "db_name",
      "default_iam_role_arn", "iam_roles", "kms_key_id", "log_exports", "namespace_id"] := by
    decide
  refine ⟨["admin_username", "arn", "db_name", "default_iam_role_arn", "iam_roles",
    "kms_key_id", "log_exports", "namespace_id"], ?_, by decide, ?_, ?_, hframe, hname,
    ⟨_, rfl, rfl, rfl⟩, ?_, ?_, ?_⟩
  · rw [hs]
    simp [setCalls_set, ResourceData.SetId]
  · intro k
    constructor
    · intro hk
      simp only [List.mem_cons, List.mem_singleton, List.not_mem_nil, or_false] at hk
      rcases hk with h | h | h | h | h | h | h | h <;> subst h <;> exact ⟨_, rfl, rfl⟩
    · rintro ⟨s, hl, hc⟩
      by_contra hk
      simp only [List.mem_cons, List.mem_singleton, not_or, List.not_mem_nil, or_false] at hk
      obtain ⟨h1, h2, h3, h4, h5, h6, h7, h8⟩ := hk
      have b : ∀ {a : String}, k ≠ a → (k == a) = false := fun h => by simpa using h
      simp only [DataSourceNamespace, List.lookup, b h1, b h2, b h3, b h4, b h5, b h6, b h7,
        b h8] at hl
      by_cases h9 : k = "namespace_name"
      · subst h9
        simp at hl
        subst hl
        simp at hc
      · simp [b h9] at hl
  · intro k hk
    simp only [List.mem_cons, List.mem_singleton, List.not_mem_nil, or_false] at hk
    have hr8 := read_success_copies_fields_aux find d r hr0
    rcases hk with h | h | h | h | h | h | h | h <;> subst h
    · exact ⟨_, hr8.1⟩
    · exact ⟨_, hr8.2.1⟩
    · exact ⟨_, hr8.2.2.1⟩
    · exact ⟨_, hr8.2.2.2.1⟩
    · exact ⟨_, hr8.2.2.2.2.1⟩
    · exact ⟨_, hr8.2.2.2.2.2.1⟩
    · exact ⟨_, hr8.2.2.2.2.2.2.1⟩
    · exact ⟨_, hr8.2.2.2.2.2.2.2⟩
  · rw [hframe _ hname, hn]
  · rw [hs]
    simp [id_set, ResourceData.SetId, hg]
  · intro find2 h2
    have hr2 : find2 (d.GetString "namespace_name") = .ok r := by rw [hg, h2]; exact hr
    simp [dataSourceNamespaceRead, hr0, hr2]

/-- Witness: the lookup key `ns1`, found by a Finder that knows no other name. -/
theorem read_writes_computed_attributes_witness :
    sampleData.attrs.lookup "namespace_name" = some (Value.str "ns1") ∧
    sampleFinder "ns1" = Except.ok sampleNamespace ∧
    ∃ w : List String,
      (dataSourceNamespaceRead sampleFinder sampleData).1.setCalls = sampleData.setCalls ++ w ∧
      w.Nodup ∧
      (∀ k, k ∈ w ↔ ∃ s, DataSourceNamespace.lookup k = some s ∧ s.Computed = true) ∧
      (dataSourceNamespaceRead sampleFinder sampleData).1.Id = "ns1" :=
  ⟨rfl, rfl,
   (read_writes_computed_attributes sampleFinder sampleData "ns1" sampleNamespace rfl rfl).imp
     (fun _ h => ⟨h.1, h.2.1, h.2.2.1, h.2.2.2.2.2.2.2.2.1⟩)⟩

/-! ## Properties of the Neptune subnet group checks -/

/-- The text produced by the "still exists" format of the destroy check. -/
theorem sprintf_still_exists (id : String) :
    Sprintf "Neptune Subnet Group %s still exists" [Arg.str id]
      = "Neptune Subnet Group " ++ id ++ " still exists" := by
  apply String.ext
  simp [Sprintf, sprintfChars, Arg.text]

/-- The loop skips an entry of another resource type. -/
theorem destroyLoop_skip {G : Type} (find : String → Except Err G) (k : String)
    (rs : ResourceState) (rest : List (String × ResourceState))
    (h : rs.Type_ ≠ "aws_neptune_subnet_group") :
    destroyLoop find ((k, rs) :: rest) = destroyLoop find rest := by
  simp [destroyLoop, h]

/-- The loop continues past a tracked entry the Finder reports as not found. -/
theorem destroyLoop_notFound {G : Type} (find : String → Except Err G) (k : String)
    (rs : ResourceState) (rest : List (String × ResourceState))
    (ht : rs.Type_ = "aws_neptune_subnet_group")
    (h : NotFound (errOf (find rs.Primary.ID)) = true) :
    destroyLoop find ((k, rs) :: rest) = destroyLoop find rest := by
  simp [destroyLoop, ht, h]

/-- The loop stops with the Finder's error at a tracked entry for which the
Finder fails with an error other than not-found. -/
theorem destroyLoop_error {G : Type} (find : String → Except Err G) (k : String)
    (rs : ResourceState) (rest : List (String × ResourceState)) (e : Err)
    (ht : rs.Type_ = "aws_neptune_subnet_group")
    (he : find rs.Primary.ID = .error e) (h : e.NotFound = false) :
    destroyLoop find ((k, rs) :: rest) = some e := by
  simp [destroyLoop, ht, he, errOf, NotFound, h]

/-- The loop stops with the "still exists" error at a tracked entry for which
the Finder returns an object. -/
theorem destroyLoop_found {G : Type} (find : String → Except Err G) (k : String)
    (rs : ResourceState) (rest : List (String × ResourceState)) (o : G)
    (ht : rs.Type_ = "aws_neptune_subnet_group")
    (ho : find rs.Primary.ID = .ok o) :
    destroyLoop find ((k, rs) :: rest)
      = some (Errorf "Neptune Subnet Group %s still exists" [Arg.str rs.Primary.ID]) := by
  simp [destroyLoop, ht, ho, errOf, NotFound]

/-- A Finder result is an error reported as not found, another error, or an object. -/
theorem finder_cases {G : Type} (x : Except Err G) :
    (NotFound (errOf x) = true) ∨
    (∃ e, x = .error e ∧ e.NotFound = false ∧ NotFound (errOf x) = false) ∨
    (∃ o, x = .ok o ∧ NotFound (errOf x) = false) := by
  cases x with
  | error e =>
    cases h : e.NotFound
    · exact Or.inr (Or.inl ⟨e, rfl, h, by simp [errOf, NotFound, h]⟩)
    · exact Or.inl (by simp [errOf, NotFound, h])
  | ok o => exact Or.inr (Or.inr ⟨o, rfl, by simp [errOf, NotFound]⟩)

/-- The loop returns `nil` exactly when every tracked entry is reported not found. -/
theorem destroyLoop_none_iff {G : Type} (find : String → Except Err G)
    (l : List (String × ResourceState)) :
    destroyLoop find l = none ↔
      ∀ p ∈ l, p.2.Type_ = "aws_neptune_subnet_group" →
        NotFound (errOf (find p.2.Primary.ID)) = true := by
  induction l with
  | nil => simp [destroyLoop]
  | cons p l ih =>
    obtain ⟨k, rs⟩ := p
    by_cases ht : rs.Type_ = "aws_neptune_subnet_group"
    · rcases finder_cases (find rs.Primary.ID) with h | ⟨e, he, hn, h⟩ | ⟨o, ho, h⟩
      · rw [destroyLoop_notFound find k rs l ht h, ih]
        simp [ht, h]
      · rw [destroyLoop_error find k rs l e ht he hn]
        simp [ht, h]
      · rw [destroyLoop_found find k rs l o ht ho]
        simp [ht, h]
    · rw [destroyLoop_skip find k rs l ht, ih]
      simp [ht]

/-- Entries of other resource types do not affect the loop. -/
theorem destroyLoop_filter {G : Type} (find : String → Except Err G)
    (l : List (String × ResourceState)) :
    destroyLoop find l
      = destroyLoop find (l.filter (fun p => p.2.Type_ = "aws_neptune_subnet_group")) := by
  induction l with
  | nil => rfl
  | cons p l ih =>
    obtain ⟨k, rs⟩ := p
    by_cases ht : rs.Type_ = "aws_neptune_subnet_group"
    · rcases finder_cases (find rs.Primary.ID) with h | ⟨e, he, hn, _⟩ | ⟨o, ho, _⟩
      · simp only [List.filter, ht, decide_True]
        rw [destroyLoop_notFound find k rs l ht h, destroyLoop_notFound find k rs _ ht h, ih]
      · simp only [List.filter, ht, decide_True]
        rw [destroyLoop_error find k rs l e ht he hn, destroyLoop_error find k rs _ e ht he hn]
      · simp only [List.filter, ht, decide_True]
        rw [destroyLoop_found find k rs l o ht ho, destroyLoop_found find k rs _ o ht ho]
    · rw [destroyLoop_skip find k rs l ht, ih]
      simp [List.filter, ht]

/-- An error returned by the loop is never a not-found error. -/
theorem destroyLoop_some_not_notFound {G : Type} (find : String → Except Err G)
    (l : List (String × ResourceState)) (e : Err) (h : destroyLoop find l = some e) :
    NotFound (some e) = false := by
  induction l with
  | nil => simp [destroyLoop] at h
  | cons p l ih =>
    obtain ⟨k, rs⟩ := p
    by_cases ht : rs.Type_ = "aws_neptune_subnet_group"
    · rcases finder_cases (find rs.Primary.ID) with hf | ⟨e', he, hn, _⟩ | ⟨o, ho, _⟩
      · rw [destroyLoop_notFound find k rs l ht hf] at h
        exact ih h
      · rw [destroyLoop_error find k rs l e' ht he hn] at h
        cases h
        simpa [NotFound] using hn
      · rw [destroyLoop_found find k rs l o ht ho] at h
        cases h
        rfl
    · rw [destroyLoop_skip find k rs l ht] at h
      exact ih h

/-- The Finder's error is recognised as not-found exactly when the Finder
returned an error that is a not-found error. -/
theorem notFound_errOf_iff {G : Type} (x : Except Err G) :
    NotFound (errOf x) = true ↔ ∃ e, x = .error e ∧ e.NotFound = true := by
  cases x with
  | error e => simp [errOf, NotFound]
  | ok o => simp [errOf, NotFound]

/-- C6: the destroy check returns `nil` if and only if, for the identifier of
every resource of type `aws_neptune_subnet_group` in the state, the Finder
returns a not-found error; resources of other types do not affect the result;
and an error the check returns is never a not-found error. -/
theorem destroy_check_nil_iff {G : Type} (find : String → Except Err G) (s : State) :
    (testAccCheckSubnetGroupDestroy find s = none ↔
      ∀ p ∈ s.RootModule.Resources, p.2.Type_ = "aws_neptune_subnet_group" →
        ∃ e, find p.2.Primary.ID = .error e ∧ e.NotFound = true) ∧
    testAccCheckSubnetGroupDestroy find s
      = testAccCheckSubnetGroupDestroy find
          { RootModule := { Resources := (s.RootModule.Resources.filter
              (fun p => p.2.Type_ = "aws_neptune_subnet_group")) } } ∧
    (∀ e, testAccCheckSubnetGroupDestroy find s = some e → e.NotFound = false) := by
  refine ⟨?_, destroyLoop_filter find _, fun e h => destroyLoop_some_not_notFound find _ e h⟩
  unfold testAccCheckSubnetGroupDestroy
  rw [destroyLoop_none_iff]
  constructor
  · intro h p hp ht
    exact (notFound_errOf_iff _).mp (h p hp ht)
  · intro h p hp ht
    exact (notFound_errOf_iff _).mpr (h p hp ht)

/-- When some tracked entry is not reported as not found, the loop stops at such
an entry: with the "still exists" error if the Finder returned an object for
it, with the Finder's error if it returned another error. -/
theorem destroyLoop_stops {G : Type} (find : String → Except Err G)
    (l : List (String × ResourceState))
    (h : ∃ p ∈ l, p.2.Type_ = "aws_neptune_subnet_group" ∧
          NotFound (errOf (find p.2.Primary.ID)) = false) :
    ∃ p ∈ l, p.2.Type_ = "aws_neptune_subnet_group" ∧
      NotFound (errOf (find p.2.Primary.ID)) = false ∧
      ((∃ o, find p.2.Primary.ID = .ok o ∧
          destroyLoop find l
            = some (Errorf "Neptune Subnet Group %s still exists" [Arg.str p.2.Primary.ID])) ∨
       (∃ e, find p.2.Primary.ID = .error e ∧ destroyLoop find l = some e)) := by
  induction l with
  | nil => simp at h
  | cons q l ih =>
    obtain ⟨k, rs⟩ := q
    have hrest : (∃ p ∈ l, p.2.Type_ = "aws_neptune_subnet_group" ∧
        NotFound (errOf (find p.2.Primary.ID)) = false) →
        destroyLoop find ((k, rs) :: l) = destroyLoop find l →
        ∃ p ∈ (k, rs) :: l, p.2.Type_ = "aws_neptune_subnet_group" ∧
          NotFound (errOf (find p.2.Primary.ID)) = false ∧
          ((∃ o, find p.2.Primary.ID = .ok o ∧
              destroyLoop find ((k, rs) :: l)
                = some (Errorf "Neptune Subnet Group %s still exists"
                    [Arg.str p.2.Primary.ID])) ∨
           (∃ e, find p.2.Primary.ID = .error e ∧
              destroyLoop find ((k, rs) :: l) = some e)) := by
      intro h' heq
      obtain ⟨p, hp, ht, hn, hres⟩ := ih h'
      exact ⟨p, List.mem_cons_of_mem _ hp, ht, hn, by rw [heq]; exact hres⟩
    by_cases ht : rs.Type_ = "aws_neptune_subnet_group"
    · rcases finder_cases (find rs.Primary.ID) with hf | ⟨e, he, hn, hf⟩ | ⟨o, ho, hf⟩
      · apply hrest _ (destroyLoop_notFound find k rs l ht hf)
        obtain ⟨p, hp, hpt, hpn⟩ := h
        rcases List.mem_cons.mp hp with rfl | hp
        · simp [hf] at hpn
        · exact ⟨p, hp, hpt, hpn⟩
      · exact ⟨(k, rs), List.mem_cons_self _ _, ht, hf,
          Or.inr ⟨e, he, destroyLoop_error find k rs l e ht he hn⟩⟩
      · exact ⟨(k, rs), List.mem_cons_self _ _, ht, hf,
          Or.inl ⟨o, ho, destroyLoop_found find k rs l o ht ho⟩⟩
    · apply hrest _ (destroyLoop_skip find k rs l ht)
      obtain ⟨p, hp, hpt, hpn⟩ := h
      rcases List.mem_cons.mp hp with rfl | hp
      · exact absurd hpt ht
      · exact ⟨p, hp, hpt, hpn⟩

/-- C7, as stated, fails: the Finder fails with a throttling error (not a
not-found error) for the tracked subnet group `sg-1`, and the check returns that
error, whose message is not the "still exists" message of any tracked resource. -/
theorem destroy_check_propagates_other_error :
    (∃ p ∈ sampleState.RootModule.Resources, p.2.Type_ = "aws_neptune_subnet_group" ∧
        NotFound (errOf (throttledFinder p.2.Primary.ID)) = false) ∧
    testAccCheckSubnetGroupDestroy throttledFinder sampleState
      = some { Error := "ThrottlingException: Rate exceeded", NotFound := false } ∧
    ¬ ∃ p ∈ sampleState.RootModule.Resources, p.2.Type_ = "aws_neptune_subnet_group" ∧
        ∃ e, testAccCheckSubnetGroupDestroy throttledFinder sampleState = some e ∧
          e.Error = "Neptune Subnet Group " ++ p.2.Primary.ID ++ " still exists" := by
  refine ⟨by decide, by decide, by decide⟩

/-- C7, amended: whenever the Finder does not report not-found for some tracked
resource of type `aws_neptune_subnet_group`, the check fails at such a resource:
with the error "Neptune Subnet Group <id> still exists" when the Finder returned
an object for its identifier, and with the Finder's own error when the Finder
returned an error other than not-found. -/
theorem destroy_check_fails {G : Type} (find : String → Except Err G) (s : State)
    (h : ∃ p ∈ s.RootModule.Resources, p.2.Type_ = "aws_neptune_subnet_group" ∧
          NotFound (errOf (find p.2.Primary.ID)) = false) :
    ∃ p ∈ s.RootModule.Resources, p.2.Type_ = "aws_neptune_subnet_group" ∧
      NotFound (errOf (find p.2.Primary.ID)) = false ∧
      ((∃ o e, find p.2.Primary.ID = .ok o ∧
          testAccCheckSubnetGroupDestroy find s = some e ∧
          e.Error = "Neptune Subnet Group " ++ p.2.Primary.ID ++ " still exists") ∨
       (∃ e, find p.2.Primary.ID = .error e ∧
          testAccCheckSubnetGroupDestroy find s = some e)) := by
  obtain ⟨p, hp, ht, hn, hres⟩ := destroyLoop_stops find _ h
  refine ⟨p, hp, ht, hn, ?_⟩
  rcases hres with ⟨o, ho, hd⟩ | ⟨e, he, hd⟩
  · exact Or.inl ⟨o, _, ho, hd, sprintf_still_exists _⟩
  · exact Or.inr ⟨e, he, hd⟩

/-- Witness: the Finder returns an object for `sg-1`. -/
theorem destroy_check_fails_witness :
    ∃ p ∈ sampleState.RootModule.Resources, p.2.Type_ = "aws_neptune_subnet_group" ∧
      NotFound (errOf (foundFinder p.2.Primary.ID)) = false ∧
      ((∃ o e, foundFinder p.2.Primary.ID = .ok o ∧
          testAccCheckSubnetGroupDestroy foundFinder sampleState = some e ∧
          e.Error = "Neptune Subnet Group " ++ p.2.Primary.ID ++ " still exists") ∨
       (∃ e, foundFinder p.2.Primary.ID = .error e ∧
          testAccCheckSubnetGroupDestroy foundFinder sampleState = some e)) :=
  destroy_check_fails foundFinder sampleState (by decide)

/-- C8: in a state whose only resource of type `aws_neptune_subnet_group` has
identifier `id`, if the Finder returns an object for `id`, the destroy check
returns an error whose message is `"Neptune Subnet Group " ++ id ++ " still exists"`. -/
theorem destroy_check_still_exists {G : Type} (find : String → Except Err G) (s : State)
    (id k : String) (rs : ResourceState) (o : G)
    (honly : s.RootModule.Resources.filter
        (fun p => p.2.Type_ = "aws_neptune_subnet_group") = [(k, rs)])
    (hid : rs.Primary.ID = id) (ho : find id = .ok o) :
    ∃ e, testAccCheckSubnetGroupDestroy find s = some e ∧
      e.Error = "Neptune Subnet Group " ++ id ++ " still exists" := by
  subst hid
  have ht : rs.Type_ = "aws_neptune_subnet_group" := by
    have hm : (k, rs) ∈ s.RootModule.Resources.filter
        (fun p => p.2.Type_ = "aws_neptune_subnet_group") := by rw [honly]; simp
    simpa using (List.mem_filter.mp hm).2
  refine ⟨Errorf "Neptune Subnet Group %s still exists" [Arg.str rs.Primary.ID], ?_,
    sprintf_still_exists rs.Primary.ID⟩
  unfold testAccCheckSubnetGroupDestroy
  rw [destroyLoop_filter, honly, destroyLoop_found find k rs [] o ht ho]

/-- Witness at the sample inputs. -/
theorem destroy_check_still_exists_witness :
    ∃ e, testAccCheckSubnetGroupDestroy foundFinder sampleState = some e ∧
      e.Error = "Neptune Subnet Group " ++ "sg-1" ++ " still exists" :=
  destroy_check_still_exists foundFinder sampleState "sg-1" "aws_neptune_subnet_group.test"
    { Type_ := "aws_neptune_subnet_group", Primary := { ID := "sg-1" } } 7
    (by decide) rfl rfl

/-- C9: the exists check returns `nil` if and only if the state holds a resource
at address `n`, its identifier is non-empty and the Finder returns an object for
that identifier, and the destination then holds the found object; when the Finder
fails, the check returns the Finder's error unchanged; and when `n` is absent or
the identifier is empty, the check fails without a call to the Finder. -/
theorem exists_check_spec {G : Type} (find : String → Except Err G) (n : String) (v : G)
    (s : State) :
    ((testAccCheckSubnetGroupExists find n v s).err = none ↔
      ∃ rs, s.RootModule.Resources.lookup n = some rs ∧ rs.Primary.ID ≠ "" ∧
        ∃ o, find rs.Primary.ID = .ok o) ∧
    (∀ rs o, s.RootModule.Resources.lookup n = some rs → rs.Primary.ID ≠ "" →
      find rs.Primary.ID = .ok o → (testAccCheckSubnetGroupExists find n v s).v = o) ∧
    (∀ rs e, s.RootModule.Resources.lookup n = some rs → rs.Primary.ID ≠ "" →
      find rs.Primary.ID = .error e →
      (testAccCheckSubnetGroupExists find n v s).err = some e) ∧
    ((s.RootModule.Resources.lookup n = none ∨
        ∃ rs, s.RootModule.Resources.lookup n = some rs ∧ rs.Primary.ID = "") →
      (testAccCheckSubnetGroupExists find n v s).calls = [] ∧
      (testAccCheckSubnetGroupExists find n v s).err ≠ none) := by
  unfold testAccCheckSubnetGroupExists
  cases hl : s.RootModule.Resources.lookup n with
  | none =>
    refine ⟨?_, ?_, ?_, ?_⟩
    · constructor
      · intro h
        cases h
      · rintro ⟨rs, hrs, _⟩
        cases hrs
    · intro rs o hrs
      cases hrs
    · intro rs e hrs
      cases hrs
    · intro _
      exact ⟨rfl, fun h => by cases h⟩
  | some rs =>
    by_cases hid : rs.Primary.ID = ""
    · simp only [hid, if_true]
      refine ⟨?_, ?_, ?_, ?_⟩
      · constructor
        · intro h
          cases h
        · rintro ⟨rs', hrs, hne, _⟩
          cases hrs
          exact absurd hid hne
      · intro rs' o hrs hne
        cases hrs
        exact absurd hid hne
      · intro rs' e hrs hne
        cases hrs
        exact absurd hid hne
      · intro _
        exact ⟨trivial, fun h => by cases h⟩
    · cases hf : find rs.Primary.ID with
      | error e =>
        simp only [hid, if_false, hf]
        refine ⟨?_, ?_, ?_, ?_⟩
        · constructor
          · intro h
            cases h
          · rintro ⟨rs', hrs, hne, o, ho⟩
            cases hrs
            rw [hf] at ho
            cases ho
        · intro rs' o hrs hne ho
          cases hrs
          rw [hf] at ho
          cases ho
        · intro rs' e' hrs hne he
          cases hrs
          rw [hf] at he
          cases he
          rfl
        · rintro (h | ⟨rs', hrs, he⟩)
          · cases h
          · cases hrs
            exact absurd he hid
      | ok o =>
        simp only [hid, if_false, hf]
        refine ⟨?_, ?_, ?_, ?_⟩
        · exact ⟨fun _ => ⟨rs, rfl, hid, o, hf⟩, fun _ => trivial⟩
        · intro rs' o' hrs hne ho
          cases hrs
          rw [hf] at ho
          cases ho
          rfl
        · intro rs' e' hrs hne he
          cases hrs
          rw [hf] at he
          cases he
        · rintro (h | ⟨rs', hrs, he⟩)
          · cases h
          · cases hrs
            exact absurd he hid

end Provider
